import Mathlib

/-!
Shallow embedding of the BSI (Body System Interface) emulator core shared by
the three sketches of the Peugeot-308-SMEG repository
(`fmux-emu.ino`, `esp32-headless-can-remote.ino`,
`smeg_time_language_emulator.ino`): the settings/clock state model, the
command decoders for the 0x15B (settings write) and 0x39B (date/time write)
frames, the boot-time clock reconstruction, the broadcast scheduler
timestamps and the bus lifecycle controller.

Bytes are modelled as `Nat` values below 256; the 8-byte settings frame is a
`List Nat` of length 8 (all frame-producing operations rebuild the full
8-entry list, mirroring the fixed `uint8_t[8]` array of the source).
-/

namespace Bsi

/-- `bsiSetBit` from `fmux-emu.ino`: set or clear the bits of `mask` in a
byte (`byte |= mask` / `byte &= ~mask` on `uint8_t`). -/
def bsiSetBit (b mask : Nat) (v : Bool) : Nat :=
  if v then b ||| mask else b &&& (255 ^^^ mask)

/-- Byte `i` of a frame, 0 for out-of-range indices (the source always
indexes fixed 8-byte arrays). -/
def getByte (fr : List Nat) (i : Nat) : Nat := fr.getD i 0

/-- The in-memory BSI emulator state: the raw 8-byte 0x260 settings frame,
the baseline flag, the decoded convenience fields, the live wall clock set
by `settimeofday`, and the persisted epoch/reference pair. -/
structure St where
  state260 : List Nat
  have260 : Bool
  lang5 : Nat
  is24h : Bool
  isCelsius : Bool
  wallEpoch : Int
  persistedEpoch : Int
  persistedEpochMillis : Nat
deriving DecidableEq, Repr

/-- `bsiEnsureBaseline` (fmux profile): if no settings frame has been
loaded, install the all-zero frame with only the menu-active bit set. -/
def bsiEnsureBaseline (s : St) : St :=
  if s.have260 then s
  else { s with state260 := [128, 0, 0, 0, 0, 0, 0, 0], have260 := true }

/-- The frame rewrite done by `bsiApplyLangUnits`: byte 0 is rebuilt from
the stored 5-bit language code keeping its low two bits and forcing bit 7;
bit 6 of byte 1 is set from the Celsius flag; all other bytes unchanged. -/
def applyLangUnitsFrame (fr : List Nat) (lang5 : Nat) (isC : Bool) : List Nat :=
  (List.range 8).map fun i =>
    if i = 0 then (((lang5 &&& 31) <<< 2) ||| (getByte fr 0 &&& 3)) ||| 128
    else if i = 1 then bsiSetBit (getByte fr 1) 64 isC
    else getByte fr i

/-- `bsiApplyLangUnits` from `fmux-emu.ino` (ensures the baseline first,
then rewrites bytes 0 and 1 of the stored frame). -/
def bsiApplyLangUnits (s : St) : St :=
  let s1 := bsiEnsureBaseline s
  { s1 with state260 := applyLangUnitsFrame s1.state260 s1.lang5 s1.isCelsius }

/-- The zero-padded 8-byte copy of an inbound frame
(`uint8_t buf[8] = {0}; memcpy(buf, data, min(len,8))`). -/
def padTo8 (data : List Nat) : List Nat :=
  (List.range 8).map fun i => data.getD i 0

/-- The tail-copy loop of `bsiHandle15B`:
`for (i = 1; i < len && i < 8; ++i) state260[i] = buf[i];`. -/
def copyTail (st buf : List Nat) (len : Nat) : List Nat :=
  (List.range 8).map fun i =>
    if 1 ≤ i ∧ i < len then getByte buf i else getByte st i

/-- `useLangUnits` of `bsiHandle15B`: bit 7 of byte 0 of the (padded)
input. -/
def useLangUnitsFlag (data : List Nat) : Bool :=
  (getByte (padTo8 data) 0) &&& 128 != 0

/-- `useTail` of `bsiHandle15B`: input length > 1 and bit 2 of byte 1 of
the (padded) input set. -/
def useTailFlag (data : List Nat) : Bool :=
  decide (1 < min data.length 8) && ((getByte (padTo8 data) 1) &&& 4 != 0)

/-- `bsiHandle15B` from `fmux-emu.ino`: the 0x15B settings-write decoder
(ensure baseline; optional tail copy when byte 1 bit 2 is set and len > 1;
optional language/units update when byte 0 bit 7 is set; then
`bsiApplyLangUnits`).  `bsiSaveState` re-applies `bsiApplyLangUnits` before
persisting and `bsiSend260` applies it again before transmitting; both are
idempotent on the result, so the state below is also the persisted and the
broadcast frame. -/
def bsiHandle15B (s : St) (data : List Nat) : St :=
  if data.length = 0 then s
  else
    let len := min data.length 8
    let buf := padTo8 data
    let s1 := bsiEnsureBaseline s
    let st2 := if useTailFlag data then copyTail s1.state260 buf len else s1.state260
    let lang := if useLangUnitsFlag data then (getByte buf 0 >>> 2) &&& 31 else s1.lang5
    let isC : Bool :=
      if useLangUnitsFlag data then (getByte buf 1) &&& 64 != 0 else s1.isCelsius
    bsiApplyLangUnits { s1 with state260 := st2, lang5 := lang, isCelsius := isC }

/-- The frame transmitted by `bsiSend260`: `bsiApplyLangUnits` is applied,
then the stored 8-byte frame is sent verbatim. -/
def broadcast260 (s : St) : List Nat :=
  (bsiApplyLangUnits s).state260

/-- Gregorian leap-year test. -/
def isLeap (y : Nat) : Bool := (y % 4 == 0 && y % 100 != 0) || (y % 400 == 0)

/-- Length of a month of the civil calendar (months 1..12). -/
def daysInMonth (y m : Nat) : Nat :=
  if m = 2 then (if isLeap y then 29 else 28)
  else if m = 4 ∨ m = 6 ∨ m = 9 ∨ m = 11 then 30 else 31

/-- Length of a civil year in days. -/
def daysInYear (y : Nat) : Nat := if isLeap y then 366 else 365

/-- Total days of the `n` civil years starting at year `y`. -/
def yearSpan : Nat → Nat → Nat
  | _, 0 => 0
  | y, n + 1 => daysInYear y + yearSpan (y + 1) n

/-- Total days of the `n` months starting at month `m` of year `y`. -/
def monthSpan (y : Nat) : Nat → Nat → Nat
  | _, 0 => 0
  | m, n + 1 => daysInMonth y m + monthSpan y (m + 1) n

/-- Unix epoch seconds of 2000-01-01 00:00:00 UTC. -/
def EPOCH2000 : Int := 946684800

/-- Days from 2000-01-01 to the civil date `y-m-d` for `y ≥ 2000`,
`m ∈ [1,12]`, `d ≥ 1`; a day count past the month's end is carried over as
extra days, exactly as `mktime` normalization does. -/
def daysFromCivil2000 (y m d : Nat) : Nat :=
  yearSpan 2000 (y - 2000) + monthSpan y 1 (m - 1) + (d - 1)

/-- Modelled C library behavior: `mktime` on the device, which has no
timezone configured (none of the sketches sets TZ, so local time is UTC),
on years ≥ 2000 with months already normalized into [1,12].  Hour/minute
values are added as seconds, matching normalization. -/
def mktimeUtc (y m d h mi : Nat) : Int :=
  EPOCH2000 + 86400 * (daysFromCivil2000 y m d) + 3600 * h + 60 * mi

/-- Modelled C library behavior: `mktime` on a `struct tm` as filled by the
0x39B decoder (`tm_year` = year−1900 ≥ 100, `tm_mon ∈ [0,14]`,
`tm_mday ≥ 1`, `tm_sec = 0`).  Per the C standard the out-of-range
`tm_mon` is normalized into the year; every such time is representable in
a 64-bit `time_t`, so the −1 failure value does not occur on this domain. -/
def mktimeFromTm (tmYear tmMon tmMday tmHour tmMin : Nat) : Int :=
  mktimeUtc (1900 + tmYear + tmMon / 12) (tmMon % 12 + 1) tmMday tmHour tmMin

/-- Bounded year search: starting at year `y` with `d` days remaining,
subtract whole years while they fit (fuel-bounded recursion). -/
def splitYear : Nat → Nat → Nat → Nat × Nat
  | 0, y, d => (y, d)
  | f + 1, y, d =>
      if d < daysInYear y then (y, d) else splitYear f (y + 1) (d - daysInYear y)

/-- Bounded month search within year `y`. -/
def splitMonth (y : Nat) : Nat → Nat → Nat → Nat × Nat
  | 0, m, d => (m, d)
  | f + 1, m, d =>
      if d < daysInMonth y m then (m, d) else splitMonth y f (m + 1) (d - daysInMonth y m)

/-- Modelled C library behavior: `localtime` (UTC, no TZ configured) on
epochs at or after 2000-01-01, as `bsiBuild276` uses it; yields
(year, month, day, hour, minute). -/
def civilFromEpoch (e : Int) : Nat × Nat × Nat × Nat × Nat :=
  let t := (e - EPOCH2000).toNat
  let days := t / 86400
  let rem := t % 86400
  let yd := splitYear 1000 2000 days
  let md := splitMonth yd.1 12 1 yd.2
  (yd.1, md.1, md.2 + 1, rem / 3600, rem % 3600 / 60)

/-- `bsiBuild276`: serialize the live wall clock into the 7-byte 0x276
date/time broadcast (byte 0 carries the 24h flag in bit 7 and year−2000,
cast to `uint8_t`, in the low bits; bytes 5 and 6 are constant fillers). -/
def bsiBuild276 (s : St) : List Nat :=
  let c := civilFromEpoch s.wallEpoch
  [(if s.is24h then 128 else 0) ||| (if 2000 ≤ c.1 then (c.1 - 2000) % 256 else 0),
   c.2.1 &&& 15, c.2.2.1 &&& 31, c.2.2.2.1 &&& 31, c.2.2.2.2 &&& 63, 63, 254]

/-- Side effects a decoder performs through its collaborators: NVS
persistence writes and attempted CAN transmissions, in program order. -/
inductive Eff where
  | persistState (lang5 : Nat) (is24h isCelsius : Bool) (raw : List Nat)
  | persistTime (epoch : Int) (refMs : Nat)
  | tx260 (frame : List Nat)
  | tx276 (frame : List Nat)
deriving DecidableEq, Repr

/-- The calendar epoch the 0x39B decoder computes: the decoded bit fields
(year = 2000 + bits[6:0] of byte 0, month = byte 1 bits[3:0], day = byte 2
bits[4:0], hour = byte 3 bits[4:0], minute = byte 4 bits[5:0]), with zero
month/day clamped to 1, put through `mktime`. -/
def handle39BEpoch (data : List Nat) : Int :=
  let month := getByte data 1 &&& 15
  let day := getByte data 2 &&& 31
  mktimeFromTm (2000 + (getByte data 0 &&& 127) - 1900)
    (if 0 < month then month - 1 else 0) (if 0 < day then day else 1)
    (getByte data 3 &&& 31) (getByte data 4 &&& 63)

/-- `bsiHandle39B` from `fmux-emu.ino` (identical in the other sketches):
the 0x39B date/time write decoder.  It decodes the bit fields, stores the
24h flag and persists the settings state (`bsiSaveState`, which first
re-applies `bsiApplyLangUnits`), converts the zero-clamped fields through
`mktime`, on success (≠ −1) sets the wall clock and persists the
epoch/reference pair, and finally always attempts the 0x276 re-broadcast
(`bsiSend276`; the transport is started whenever the receive loop runs the
decoder).  `nowMs` is `millis()` at the call. -/
def bsiHandle39B (s : St) (data : List Nat) (nowMs : Nat) : St × List Eff :=
  if data.length < 5 then (s, [])
  else
    let is24 : Bool := (getByte data 0) &&& 128 != 0
    let s1 := bsiApplyLangUnits { s with is24h := is24 }
    let e1 := [Eff.persistState s1.lang5 s1.is24h s1.isCelsius s1.state260]
    let epoch := handle39BEpoch data
    let s2 := if epoch ≠ (-1 : Int) then
        { s1 with wallEpoch := epoch, persistedEpoch := epoch,
                  persistedEpochMillis := nowMs }
      else s1
    let e2 := if epoch ≠ (-1 : Int) then [Eff.persistTime epoch nowMs] else []
    (s2, e1 ++ e2 ++ [Eff.tx276 (bsiBuild276 s2)])

/-- The clock-reconstruction step of `bsiLoadState` / `loadStateFromNvs`:
from the persisted epoch, the persisted reference ticks and the current
`millis()` value, the wall clock written by `settimeofday`, or `none` when
the clock is left unset.  The elapsed delta is zero unless the reference is
positive and not in the future. -/
def bsiLoadClock (persistedEpoch : Int) (persistedEpochMillis nowMs : Nat) : Option Int :=
  if 0 < persistedEpoch then
    let delta := if 0 < persistedEpochMillis ∧ persistedEpochMillis ≤ nowMs
      then nowMs - persistedEpochMillis else 0
    some (persistedEpoch + (delta / 1000 : Nat))
  else none

/-- The Peugeot 307 vendor baseline `kBsi260DefaultPeugeot307` of
`esp32-headless-can-remote.ino`. -/
def kBsi260DefaultPeugeot307 : List Nat := [184, 68, 34, 144, 33, 8, 0, 0]

/-- The settings-frame part of `bsiLoadState` in `fmux-emu.ino`: `raw` is
the persisted raw260 blob (`none` when absent or shorter than 8 bytes;
that clears `bsiHave260`, so `bsiEnsureBaseline` installs the zero frame
with the menu bit).  `bsiApplyLangUnits` then rewrites bytes 0/1 from the
loaded language and Celsius fields. -/
def bsiLoadFrameFmux (raw : Option (List Nat)) (lang5 : Nat) (isC : Bool) : List Nat :=
  match raw with
  | some p => applyLangUnitsFrame p lang5 isC
  | none => applyLangUnitsFrame [128, 0, 0, 0, 0, 0, 0, 0] lang5 isC

/-- The settings-frame part of `bsiLoadState` in
`esp32-headless-can-remote.ino`: a present blob consisting entirely of
zero bytes is replaced by the Peugeot 307 vendor baseline; an absent blob
makes `bsiEnsureBaseline` install that baseline; then
`bsiApplyLangUnits` rewrites bytes 0/1. -/
def bsiLoadFrameHeadless (raw : Option (List Nat)) (lang5 : Nat) (isC : Bool) : List Nat :=
  match raw with
  | some p =>
      applyLangUnitsFrame (if p.all (· == 0) then kBsi260DefaultPeugeot307 else p) lang5 isC
  | none => applyLangUnitsFrame kBsi260DefaultPeugeot307 lang5 isC

/-- Field extraction at the date/time bit positions, as the 0x39B decoder
reads them: (24h flag, year−2000, month, day, hour, minute). -/
def decodeTimeFields (fr : List Nat) : Bool × Nat × Nat × Nat × Nat × Nat :=
  ((getByte fr 0) &&& 128 != 0, getByte fr 0 &&& 127, getByte fr 1 &&& 15,
   getByte fr 2 &&& 31, getByte fr 3 &&& 31, getByte fr 4 &&& 63)

/-- A concrete example state: Peugeot 307 vendor baseline frame, language
code 14, 24h format, Celsius, wall clock at 2020-01-01 00:00:00 UTC. -/
def sampleSt : St :=
  { state260 := [184, 68, 34, 144, 33, 8, 0, 0], have260 := true, lang5 := 14,
    is24h := true, isCelsius := true, wallEpoch := 1577836800,
    persistedEpoch := 1577836800, persistedEpochMillis := 5 }

/-- Timestamp update done by `bsiSend260` / `bsiSend276` in
`fmux-emu.ino`: the last-sent timestamp becomes `millis()` only when
`canSend` returned true. -/
def sendTimestamp (last nowMs : Nat) (txOk : Bool) : Nat :=
  if txOk then nowMs else last

/-- The two last-sent broadcast timestamps. -/
structure Sched where
  lastBsi260 : Nat
  lastBsi276 : Nat
deriving DecidableEq, Repr

/-- One `bsiTick` of `fmux-emu.ino` with the transport started: each
message kind whose period (500 ms / 1000 ms) has elapsed is sent;
`txOk260` / `txOk276` are the `canSend` results of those attempts.
Monotonic time does not wrap within a run, so `now - last` is ordinary
subtraction. -/
def bsiTick (sc : Sched) (nowMs : Nat) (txOk260 txOk276 : Bool) : Sched :=
  { lastBsi260 := if 500 ≤ nowMs - sc.lastBsi260
      then sendTimestamp sc.lastBsi260 nowMs txOk260 else sc.lastBsi260,
    lastBsi276 := if 1000 ≤ nowMs - sc.lastBsi276
      then sendTimestamp sc.lastBsi276 nowMs txOk276 else sc.lastBsi276 }

/-- The periodic part of `loop()` in `smeg_time_language_emulator.ino`:
when a period (100 ms / 500 ms) has elapsed the timestamp is assigned
`now` before `send260()` / `send276()` is called, and the transmit result
is discarded, so the update happens whether or not the send succeeds. -/
def smegLoopTick (sc : Sched) (nowMs : Nat) (_txOk260 _txOk276 : Bool) : Sched :=
  { lastBsi260 := if 100 ≤ nowMs - sc.lastBsi260 then nowMs else sc.lastBsi260,
    lastBsi276 := if 500 ≤ nowMs - sc.lastBsi276 then nowMs else sc.lastBsi276 }

/-- The bus-timing profile type of the sketches (`enum class CanBitrate`). -/
inductive CanBitrate | k125k
deriving DecidableEq, Repr

/-- Transport operations issued to the TWAI driver, in program order. -/
inductive TwaiOp | stop | uninstall | install | start | send260 | send276
deriving DecidableEq, Repr

/-- Bus lifecycle controller state of `fmux-emu.ino` /
`esp32-headless-can-remote.ino`: started flag, current profile, the
volatile sensor caches (`lastCanRx` plus the cached readings, modelled as
integers since the controller only resets them to the constants −99 and
0), and the two broadcast timestamps. -/
structure CanCtl where
  canStarted : Bool
  currentBitrate : CanBitrate
  lastCanRx : Nat
  engineTemp : Int
  batteryVolt : Int
  lastBsi260 : Nat
  lastBsi276 : Nat
deriving DecidableEq, Repr

/-- `twaiStart`: immediate success when already started; otherwise install
and start the driver (`installOk` / `startOk` give the driver results);
on success both broadcast timestamps are set to `millis()` and the two
broadcasts are sent at once. -/
def twaiStart (s : CanCtl) (nowMs : Nat) (installOk startOk : Bool) :
    CanCtl × Bool × List TwaiOp :=
  if s.canStarted then (s, true, [])
  else if !installOk then (s, false, [TwaiOp.install])
  else if !startOk then (s, false, [TwaiOp.install, TwaiOp.start])
  else ({ s with canStarted := true, lastBsi260 := nowMs, lastBsi276 := nowMs },
        true, [TwaiOp.install, TwaiOp.start, TwaiOp.send260, TwaiOp.send276])

/-- `twaiReconfigure` from `fmux-emu.ino` (identical in
`esp32-headless-can-remote.ino` up to one extra cached sensor): immediate
success with no action when already running with the requested profile;
otherwise stop and uninstall if running, adopt the new profile, clear the
volatile sensor caches, reset the broadcast timestamps, and restart. -/
def twaiReconfigure (s : CanCtl) (b : CanBitrate) (nowMs : Nat) (installOk startOk : Bool) :
    CanCtl × Bool × List TwaiOp :=
  if s.currentBitrate = b ∧ s.canStarted then (s, true, [])
  else
    let down := if s.canStarted then [TwaiOp.stop, TwaiOp.uninstall] else []
    let s1 := { s with canStarted := false, currentBitrate := b, lastCanRx := 0,
                       engineTemp := -99, batteryVolt := 0,
                       lastBsi260 := nowMs, lastBsi276 := nowMs }
    let r := twaiStart s1 nowMs installOk startOk
    (r.1, r.2.1, down ++ r.2.2)

end Bsi

namespace Bsi

/-! ### Frame and bit-level helper lemmas -/

theorem frame_ext {f g : Nat → Nat} (h : ∀ i < 8, f i = g i) :
    (List.range 8).map f = (List.range 8).map g := by
  apply List.map_congr_left
  intro i hi
  exact h i (List.mem_range.mp hi)

theorem getByte_rangeMap (f : Nat → Nat) (i : Nat) (hi : i < 8) :
    getByte ((List.range 8).map f) i = f i := by
  interval_cases i <;> rfl

theorem applyLangUnitsFrame_byte0 (fr : List Nat) (l : Nat) (c : Bool) :
    getByte (applyLangUnitsFrame fr l c) 0 =
      (((l &&& 31) <<< 2) ||| (getByte fr 0 &&& 3)) ||| 128 := rfl

theorem applyLangUnitsFrame_byte1 (fr : List Nat) (l : Nat) (c : Bool) :
    getByte (applyLangUnitsFrame fr l c) 1 = bsiSetBit (getByte fr 1) 64 c := rfl

theorem applyLangUnitsFrame_byte_ge2 (fr : List Nat) (l : Nat) (c : Bool) (i : Nat)
    (h2 : 2 ≤ i) (h8 : i < 8) :
    getByte (applyLangUnitsFrame fr l c) i = getByte fr i := by
  rw [applyLangUnitsFrame, getByte_rangeMap _ i h8]
  have h0 : ¬ i = 0 := by omega
  have h1 : ¬ i = 1 := by omega
  simp [h0, h1]

theorem applyLangUnitsFrame_length (fr : List Nat) (l : Nat) (c : Bool) :
    (applyLangUnitsFrame fr l c).length = 8 := by
  simp [applyLangUnitsFrame]

theorem lor128_and128 (x : Nat) : (x ||| 128) &&& 128 = 128 := by
  have h : (128 : Nat) = 2 ^ 7 := by norm_num
  have h7 : Nat.testBit 128 7 = true := by decide
  rw [h, Nat.and_two_pow, Nat.testBit_lor]
  rw [h] at h7
  rw [h7]
  simp

theorem setBit64_and4 (b : Nat) (c : Bool) : bsiSetBit b 64 c &&& 4 = b &&& 4 := by
  cases c
  · show (b &&& (255 ^^^ 64)) &&& 4 = b &&& 4
    rw [Nat.land_assoc]
    have h : ((255 : Nat) ^^^ 64) &&& 4 = 4 := by decide
    rw [h]
  · show (b ||| 64) &&& 4 = b &&& 4
    have h4 : (4 : Nat) = 2 ^ 2 := by norm_num
    have h64 : Nat.testBit 64 2 = false := by decide
    rw [h4, Nat.and_two_pow, Nat.and_two_pow, Nat.testBit_lor, h64]
    simp

theorem setBit64_idem (b : Nat) (c : Bool) :
    bsiSetBit (bsiSetBit b 64 c) 64 c = bsiSetBit b 64 c := by
  cases c
  · show (b &&& (255 ^^^ 64)) &&& (255 ^^^ 64) = b &&& (255 ^^^ 64)
    rw [Nat.land_assoc]
    have h : ((255 : Nat) ^^^ 64) &&& (255 ^^^ 64) = 255 ^^^ 64 := by decide
    rw [h]
  · show (b ||| 64) ||| 64 = b ||| 64
    rw [Nat.lor_assoc]
    have h : (64 : Nat) ||| 64 = 64 := by decide
    rw [h]

theorem land31_lt (x : Nat) : x &&& 31 < 32 :=
  Nat.lt_succ_of_le Nat.and_le_right

theorem land3_lt (x : Nat) : x &&& 3 < 4 :=
  Nat.lt_succ_of_le Nat.and_le_right

theorem pack_low2 : ∀ a < 32, ∀ t < 4, (((a <<< 2) ||| t) ||| 128) &&& 3 = t := by decide

theorem pack_lang : ∀ l < 32, ∀ t < 4,
    ((((l &&& 31) <<< 2) ||| t) ||| 128) >>> 2 &&& 31 = l := by decide

theorem frame_eq_of_getByte {xs ys : List Nat} (hx : xs.length = 8) (hy : ys.length = 8)
    (h : ∀ i < 8, getByte xs i = getByte ys i) : xs = ys := by
  apply List.ext_getElem (by omega)
  intro i h1 h2
  have hg := h i (by omega)
  rw [getByte, getByte, List.getD_eq_getElem?_getD, List.getD_eq_getElem?_getD,
    List.getElem?_eq_getElem h1, List.getElem?_eq_getElem h2] at hg
  simpa using hg

theorem applyLangUnitsFrame_idem (fr : List Nat) (l : Nat) (c : Bool) :
    applyLangUnitsFrame (applyLangUnitsFrame fr l c) l c = applyLangUnitsFrame fr l c := by
  apply frame_eq_of_getByte (applyLangUnitsFrame_length _ _ _) (applyLangUnitsFrame_length _ _ _)
  intro i hi
  match i with
  | 0 =>
      rw [applyLangUnitsFrame_byte0 (applyLangUnitsFrame fr l c) l c,
        applyLangUnitsFrame_byte0 fr l c,
        pack_low2 (l &&& 31) (land31_lt l) (getByte fr 0 &&& 3) (land3_lt _)]
  | 1 =>
      rw [applyLangUnitsFrame_byte1 (applyLangUnitsFrame fr l c) l c,
        applyLangUnitsFrame_byte1 fr l c, setBit64_idem]
  | n + 2 =>
      rw [applyLangUnitsFrame_byte_ge2 _ l c (n + 2) (by omega) hi,
        applyLangUnitsFrame_byte_ge2 _ l c (n + 2) (by omega) hi]

theorem ensureBaseline_idem (s : St) :
    bsiEnsureBaseline (bsiEnsureBaseline s) = bsiEnsureBaseline s := by
  cases h : s.have260 <;> simp [bsiEnsureBaseline, h]

theorem ensureBaseline_of_have260 (s : St) (h : s.have260 = true) :
    bsiEnsureBaseline s = s := by
  simp [bsiEnsureBaseline, h]

theorem applyLangUnits_have260 (s : St) : (bsiApplyLangUnits s).have260 = true := by
  cases h : s.have260 <;> simp [bsiApplyLangUnits, bsiEnsureBaseline, h]

theorem bsiApplyLangUnits_idem (s : St) :
    bsiApplyLangUnits (bsiApplyLangUnits s) = bsiApplyLangUnits s := by
  cases h : s.have260 <;>
    simp [bsiApplyLangUnits, bsiEnsureBaseline, h, applyLangUnitsFrame_idem]

theorem ensureBaseline_lang5 (s : St) : (bsiEnsureBaseline s).lang5 = s.lang5 := by
  cases h : s.have260 <;> simp [bsiEnsureBaseline, h]

theorem ensureBaseline_isCelsius (s : St) :
    (bsiEnsureBaseline s).isCelsius = s.isCelsius := by
  cases h : s.have260 <;> simp [bsiEnsureBaseline, h]

theorem applyLangUnits_state260 (s : St) :
    (bsiApplyLangUnits s).state260 =
      applyLangUnitsFrame (bsiEnsureBaseline s).state260 s.lang5 s.isCelsius := by
  cases h : s.have260 <;> simp [bsiApplyLangUnits, bsiEnsureBaseline, h]

theorem handle15B_eq_apply (s : St) (data : List Nat) (h : ¬ data.length = 0) :
    bsiHandle15B s data =
      bsiApplyLangUnits
        { bsiEnsureBaseline s with
          state260 := if useTailFlag data
            then copyTail (bsiEnsureBaseline s).state260 (padTo8 data) (min data.length 8)
            else (bsiEnsureBaseline s).state260,
          lang5 := if useLangUnitsFlag data
            then (getByte (padTo8 data) 0 >>> 2) &&& 31
            else (bsiEnsureBaseline s).lang5,
          isCelsius := if useLangUnitsFlag data
            then ((getByte (padTo8 data) 1) &&& 64 != 0)
            else (bsiEnsureBaseline s).isCelsius } := by
  simp only [bsiHandle15B, if_neg h]

theorem broadcast260_of_apply (s : St) :
    broadcast260 (bsiApplyLangUnits s) = (bsiApplyLangUnits s).state260 := by
  rw [broadcast260, bsiApplyLangUnits_idem]

theorem getByte_padTo8_zero (data : List Nat) : getByte (padTo8 data) 0 = getByte data 0 := rfl

/-- C4: every emitted settings broadcast frame has byte 0 bit 7 equal to 1
(for every reachable or unreachable state, hence after any sequence of
writes), and a settings write with the lang/units flag set makes the next
settings broadcast's byte 0 bits [6:2] equal the input's byte 0 bits
[6:2]. -/
theorem c4_broadcast_bit7_and_lang :
    (∀ s : St, getByte (broadcast260 s) 0 &&& 128 = 128) ∧
    (∀ (s : St) (data : List Nat), ¬ data.length = 0 →
      useLangUnitsFlag data = true →
      (getByte (broadcast260 (bsiHandle15B s data)) 0 >>> 2) &&& 31 =
        (getByte data 0 >>> 2) &&& 31) := by
  constructor
  · intro s
    rw [broadcast260, applyLangUnits_state260, applyLangUnitsFrame_byte0, lor128_and128]
  · intro s data hlen hflag
    rw [handle15B_eq_apply s data hlen, broadcast260_of_apply,
      applyLangUnits_state260, applyLangUnitsFrame_byte0]
    simp only [hflag, if_pos]
    rw [pack_lang _ (land31_lt _) _ (land3_lt _), getByte_padTo8_zero]

/-- Witness for C4 at a concrete state and input frame. -/
theorem c4_broadcast_bit7_and_lang_witness :
    getByte
        (broadcast260
          { state260 := [184, 68, 34, 144, 33, 8, 0, 0], have260 := true, lang5 := 14,
            is24h := true, isCelsius := true, wallEpoch := 0, persistedEpoch := 0,
            persistedEpochMillis := 0 }) 0 &&& 128 = 128 ∧
    (getByte
        (broadcast260
          (bsiHandle15B
            { state260 := [184, 68, 34, 144, 33, 8, 0, 0], have260 := true, lang5 := 14,
              is24h := true, isCelsius := true, wallEpoch := 0, persistedEpoch := 0,
              persistedEpochMillis := 0 }
            [148, 68])) 0 >>> 2) &&& 31 =
      (getByte [148, 68] 0 >>> 2) &&& 31 :=
  ⟨c4_broadcast_bit7_and_lang.1 _,
   c4_broadcast_bit7_and_lang.2 _ [148, 68] (by decide) (by decide)⟩

theorem apply_ensure (s : St) :
    bsiApplyLangUnits (bsiEnsureBaseline s) = bsiApplyLangUnits s := by
  cases h : s.have260 <;> simp [bsiApplyLangUnits, bsiEnsureBaseline, h]

theorem getByte_padTo8 (data : List Nat) (i : Nat) (hi : i < 8) :
    getByte (padTo8 data) i = getByte data i := by
  rw [padTo8, getByte_rangeMap _ i hi]
  rfl

theorem getByte_copyTail (st buf : List Nat) (len i : Nat) (hi : i < 8) :
    getByte (copyTail st buf len) i =
      if 1 ≤ i ∧ i < len then getByte buf i else getByte st i := by
  rw [copyTail, getByte_rangeMap _ i hi]

theorem copyTail_byte0 (st buf : List Nat) (len : Nat) :
    getByte (copyTail st buf len) 0 = getByte st 0 := rfl

theorem ensure_mk (fr : List Nat) (l : Nat) (i24 c : Bool) (w pe : Int) (pm : Nat) :
    bsiEnsureBaseline ⟨fr, true, l, i24, c, w, pe, pm⟩ =
      ⟨fr, true, l, i24, c, w, pe, pm⟩ := rfl

theorem applyLangUnits_mk (fr : List Nat) (l : Nat) (i24 c : Bool) (w pe : Int) (pm : Nat) :
    bsiApplyLangUnits ⟨fr, true, l, i24, c, w, pe, pm⟩ =
      ⟨applyLangUnitsFrame fr l c, true, l, i24, c, w, pe, pm⟩ := rfl

/-- C9: a settings write in which neither the lang/units flag nor the tail
flag is set changes no broadcast content — the settings broadcast emitted
before and after the write are byte-for-byte identical — and a zero-length
settings write leaves the whole state unchanged. -/
theorem c9_flagless_write_noop (s : St) (data : List Nat)
    (hLang : useLangUnitsFlag data = false)
    (hTail : useTailFlag data = false) :
    broadcast260 (bsiHandle15B s data) = broadcast260 s ∧
    (data.length = 0 → bsiHandle15B s data = s) := by
  constructor
  · by_cases h0 : data.length = 0
    · rw [bsiHandle15B, if_pos h0]
    · rw [handle15B_eq_apply s data h0]
      simp only [hLang, hTail, Bool.false_eq_true, if_false]
      rw [broadcast260_of_apply, apply_ensure, broadcast260]
  · intro h0
    rw [bsiHandle15B, if_pos h0]

/-- Witness for C9: a two-byte write whose byte 0 bit 7 and byte 1 bit 2
are both clear leaves the broadcast unchanged. -/
theorem c9_flagless_write_noop_witness :
    broadcast260 (bsiHandle15B sampleSt [16, 64]) = broadcast260 sampleSt :=
  (c9_flagless_write_noop sampleSt [16, 64] (by decide) (by decide)).1

/-- C2 as stated fails: starting from a state whose Celsius flag is true,
the tail write [0x00, 0x04] (tail flag set, lang/units flag clear) stores
0x44 at index 1 — bit 6 is forced back to the stored Celsius flag by
`bsiApplyLangUnits` — not the input byte 0x04. -/
theorem c2_counterexample :
    getByte (bsiHandle15B sampleSt [0, 4]).state260 1 ≠ getByte [0, 4] 1 := by decide

/-- C2 (amended): for a settings write of length 2..8 with the tail flag
set, bytes 2..len−1 of the stored frame equal the input verbatim; byte 1
equals the input byte with bit 6 forced to the stored Celsius flag (the
input's own bit 6 when the lang/units flag is also set, the prior flag
otherwise); the tail-copy path itself never writes byte 0; bytes at
indices ≥ len keep their prior values; and the next broadcast equals the
stored frame byte-for-byte. -/
theorem c2_tail_write_amended (s : St) (data : List Nat)
    (hs : s.have260 = true) (h2 : 2 ≤ data.length) (h8 : data.length ≤ 8)
    (hTail : useTailFlag data = true) :
    (∀ i, 2 ≤ i → i < data.length →
      getByte (bsiHandle15B s data).state260 i = getByte data i) ∧
    getByte (bsiHandle15B s data).state260 1 =
      bsiSetBit (getByte data 1) 64
        (if useLangUnitsFlag data then ((getByte data 1) &&& 64 != 0)
         else s.isCelsius) ∧
    (∀ st buf len, getByte (copyTail st buf len) 0 = getByte st 0) ∧
    (∀ i, data.length ≤ i → i < 8 →
      getByte (bsiHandle15B s data).state260 i = getByte s.state260 i) ∧
    broadcast260 (bsiHandle15B s data) = (bsiHandle15B s data).state260 := by
  obtain ⟨fr, hv, l, i24, c, w, pe, pm⟩ := s
  have hv1 : hv = true := hs
  subst hv1
  have h0 : ¬ data.length = 0 := by omega
  have hmin : min data.length 8 = data.length := by omega
  rw [handle15B_eq_apply _ data h0, ensure_mk]
  dsimp only
  simp only [hTail, if_true, hmin]
  rw [applyLangUnits_mk]
  dsimp only
  refine ⟨?_, ?_, fun st buf len => copyTail_byte0 st buf len, ?_, ?_⟩
  · intro i hi2 hilen
    have hi8 : i < 8 := by omega
    rw [applyLangUnitsFrame_byte_ge2 _ _ _ i hi2 hi8, getByte_copyTail _ _ _ i hi8,
      if_pos ⟨by omega, hilen⟩, getByte_padTo8 data i hi8]
  · rw [applyLangUnitsFrame_byte1, getByte_copyTail _ _ _ 1 (by omega),
      if_pos ⟨le_refl 1, by omega⟩, getByte_padTo8 data 1 (by omega)]
  · intro i hilen hi8
    rw [applyLangUnitsFrame_byte_ge2 _ _ _ i (by omega) hi8, getByte_copyTail _ _ _ i hi8,
      if_neg (by omega)]
  · rw [← applyLangUnits_mk, broadcast260_of_apply, applyLangUnits_mk]

/-- Witness for C2 (amended) at a concrete state and a concrete tail
write of length 3. -/
theorem c2_tail_write_amended_witness :
    getByte (bsiHandle15B sampleSt [148, 68, 55]).state260 2 = getByte [148, 68, 55] 2 ∧
    getByte (bsiHandle15B sampleSt [148, 68, 55]).state260 5 = getByte sampleSt.state260 5 := by
  have h := c2_tail_write_amended sampleSt [148, 68, 55] (by decide) (by decide)
    (by decide) (by decide)
  exact ⟨h.1 2 (by decide) (by decide), h.2.2.2.1 5 (by decide) (by decide)⟩

theorem ensure_mk_false (fr : List Nat) (l : Nat) (i24 c : Bool) (w pe : Int) (pm : Nat) :
    bsiEnsureBaseline ⟨fr, false, l, i24, c, w, pe, pm⟩ =
      ⟨[128, 0, 0, 0, 0, 0, 0, 0], true, l, i24, c, w, pe, pm⟩ := rfl

theorem ensureBaseline_have260 (s : St) : (bsiEnsureBaseline s).have260 = true := by
  cases h : s.have260 <;> simp [bsiEnsureBaseline, h]

theorem handle15B_byte1_tail (s : St) (data : List Nat) (h2 : 2 ≤ data.length)
    (h8 : data.length ≤ 8) (hTail : useTailFlag data = true) :
    getByte (bsiHandle15B s data).state260 1 =
      bsiSetBit (getByte data 1) 64
        (if useLangUnitsFlag data then ((getByte data 1) &&& 64 != 0)
         else s.isCelsius) := by
  obtain ⟨fr, hv, l, i24, c, w, pe, pm⟩ := s
  have h0 : ¬ data.length = 0 := by omega
  have hmin : min data.length 8 = data.length := by omega
  cases hv <;>
    [rw [handle15B_eq_apply _ data h0, ensure_mk_false];
     rw [handle15B_eq_apply _ data h0, ensure_mk]] <;>
  · dsimp only
    simp only [hTail, if_true, hmin]
    rw [applyLangUnits_mk]
    dsimp only
    rw [applyLangUnitsFrame_byte1, getByte_copyTail _ _ _ 1 (by omega),
      if_pos ⟨le_refl 1, by omega⟩, getByte_padTo8 data 1 (by omega)]

/-- C10: after a settings write with the tail flag set (length 2..8), the
stored frame's byte 1 bit 2 equals the input's byte 1 bit 2 and is set;
settings writes without the tail flag, date/time writes, and broadcast
serialization all leave the stored byte 1 bit 2 unchanged; and every
settings broadcast carries the stored byte 1 bit 2 unmodified. -/
theorem c10_tail_flag_carried :
    (∀ (s : St) (data : List Nat), 2 ≤ data.length → data.length ≤ 8 →
      useTailFlag data = true →
      getByte (bsiHandle15B s data).state260 1 &&& 4 = getByte data 1 &&& 4 ∧
      getByte data 1 &&& 4 ≠ 0) ∧
    (∀ (s : St) (data : List Nat), s.have260 = true → useTailFlag data = false →
      getByte (bsiHandle15B s data).state260 1 &&& 4 = getByte s.state260 1 &&& 4) ∧
    (∀ (s : St) (data : List Nat) (nowMs : Nat), s.have260 = true →
      getByte (bsiHandle39B s data nowMs).1.state260 1 &&& 4 =
        getByte s.state260 1 &&& 4) ∧
    (∀ s : St, s.have260 = true →
      getByte (broadcast260 s) 1 &&& 4 = getByte s.state260 1 &&& 4) := by
  refine ⟨?_, ?_, ?_, ?_⟩
  · intro s data h2 h8 hTail
    constructor
    · rw [handle15B_byte1_tail s data h2 h8 hTail, setBit64_and4]
    · have h1 := hTail
      rw [useTailFlag, Bool.and_eq_true] at h1
      have h3 := h1.2
      rw [bne_iff_ne, getByte_padTo8 data 1 (by omega)] at h3
      exact h3
  · intro s data hs hTail
    by_cases h0 : data.length = 0
    · rw [bsiHandle15B, if_pos h0]
    · obtain ⟨fr, hv, l, i24, c, w, pe, pm⟩ := s
      have hv1 : hv = true := hs
      subst hv1
      rw [handle15B_eq_apply _ data h0, ensure_mk]
      dsimp only
      simp only [hTail, Bool.false_eq_true, if_false]
      rw [applyLangUnits_mk]
      dsimp only
      rw [applyLangUnitsFrame_byte1, setBit64_and4]
  · intro s data nowMs hs
    by_cases hl : data.length < 5
    · rw [bsiHandle39B, if_pos hl]
    · obtain ⟨fr, hv, l, i24, c, w, pe, pm⟩ := s
      have hv1 : hv = true := hs
      subst hv1
      rw [bsiHandle39B, if_neg hl]
      dsimp only
      rw [applyLangUnits_mk]
      dsimp only
      have hb : ∀ X : St, X.state260 = applyLangUnitsFrame fr l c →
          getByte X.state260 1 &&& 4 = getByte fr 1 &&& 4 := by
        intro X hX
        rw [hX, applyLangUnitsFrame_byte1, setBit64_and4]
      apply hb
      split <;> rfl
  · intro s hs
    rw [broadcast260, applyLangUnits_state260, ensureBaseline_of_have260 s hs,
      applyLangUnitsFrame_byte1, setBit64_and4]

/-- Witness for C10 at a concrete tail write, a date/time write, and a
broadcast. -/
theorem c10_tail_flag_carried_witness :
    (getByte (bsiHandle15B sampleSt [160, 5, 7]).state260 1 &&& 4 =
      getByte [160, 5, 7] 1 &&& 4) ∧
    (getByte (bsiHandle39B sampleSt [24, 3, 15, 14, 30] 7).1.state260 1 &&& 4 =
      getByte sampleSt.state260 1 &&& 4) ∧
    (getByte (broadcast260 sampleSt) 1 &&& 4 = getByte sampleSt.state260 1 &&& 4) :=
  ⟨(c10_tail_flag_carried.1 sampleSt [160, 5, 7] (by decide) (by decide) (by decide)).1,
   c10_tail_flag_carried.2.2.1 sampleSt [24, 3, 15, 14, 30] 7 (by decide),
   c10_tail_flag_carried.2.2.2 sampleSt (by decide)⟩

/-- C3 as stated fails when the persisted reference ticks are zero: with
E = 5, R = 0 and current ticks T = 5000 (so T ≥ R), the code reconstructs
E, not E + ⌊(T − R)/1000⌋ = 10, because the elapsed delta is clamped to
zero whenever the reference is zero. -/
theorem c3_counterexample :
    bsiLoadClock 5 0 5000 = some 5 ∧
    bsiLoadClock 5 0 5000 ≠ some ((5 : Int) + ((5000 - 0) / 1000 : Nat)) := by decide

/-- C3 (amended): at startup with persisted epoch E > 0, persisted
reference ticks R and current monotonic ticks T: if R > 0 and T ≥ R the
wall clock is set to E + ⌊(T − R)/1000⌋; if R = 0 or T < R it is set to E
exactly (no negative drift); if E is zero (or negative) the wall clock is
not set at all. -/
theorem c3_boot_clock_amended (E : Int) (R T : Nat) :
    (0 < E → 0 < R → R ≤ T →
      bsiLoadClock E R T = some (E + ((T - R) / 1000 : Nat))) ∧
    (0 < E → (R = 0 ∨ T < R) → bsiLoadClock E R T = some E) ∧
    (E ≤ 0 → bsiLoadClock E R T = none) := by
  refine ⟨?_, ?_, ?_⟩
  · intro hE hR hT
    rw [bsiLoadClock, if_pos hE, if_pos ⟨hR, hT⟩]
  · intro hE hRT
    rw [bsiLoadClock, if_pos hE, if_neg (by omega)]
    simp
  · intro hE
    rw [bsiLoadClock, if_neg (by omega)]

/-- Witness for C3 (amended) on all three branches. -/
theorem c3_boot_clock_amended_witness :
    bsiLoadClock 1577836800 5 4005 = some (1577836800 + ((4005 - 5) / 1000 : Nat)) ∧
    bsiLoadClock 1577836800 0 4005 = some 1577836800 ∧
    bsiLoadClock 0 5 4005 = none :=
  ⟨(c3_boot_clock_amended 1577836800 5 4005).1 (by decide) (by decide) (by decide),
   (c3_boot_clock_amended 1577836800 0 4005).2.1 (by decide) (Or.inl rfl),
   (c3_boot_clock_amended 0 5 4005).2.2 (by decide)⟩

/-- C6 as stated fails in `smeg_time_language_emulator.ino`: its loop sets
the last-sent timestamp to `now` before attempting the send and ignores
the transmit result, so after a failed transmission the timestamp has
still been updated (here from 0 to 100), and the next attempt waits out a
full period instead of retrying promptly. -/
theorem c6_counterexample :
    (smegLoopTick ⟨0, 0⟩ 100 false false).lastBsi260 = 100 ∧ (100 : Nat) ≠ 0 := by decide

/-- C6 (amended): in `fmux-emu.ino` / `esp32-headless-can-remote.ino` each
broadcast kind's last-sent timestamp is updated to the current monotonic
time if and only if the transmit attempt succeeded (so a failed send is
retried on the next tick); in `smeg_time_language_emulator.ino` the loop
instead updates the timestamp unconditionally once the period has
elapsed, before the send attempt. -/
theorem c6_send_timestamp_amended (sc : Sched) (nowMs : Nat) (ok260 ok276 : Bool) :
    (500 ≤ nowMs - sc.lastBsi260 →
      (bsiTick sc nowMs ok260 ok276).lastBsi260 =
        if ok260 then nowMs else sc.lastBsi260) ∧
    (1000 ≤ nowMs - sc.lastBsi276 →
      (bsiTick sc nowMs ok260 ok276).lastBsi276 =
        if ok276 then nowMs else sc.lastBsi276) ∧
    (100 ≤ nowMs - sc.lastBsi260 →
      (smegLoopTick sc nowMs ok260 ok276).lastBsi260 = nowMs) := by
  refine ⟨?_, ?_, ?_⟩ <;> intro h <;>
    simp [bsiTick, smegLoopTick, sendTimestamp, h]

/-- Witness for C6 (amended): a tick at 1000 ms with a failed 0x260 send
and a successful 0x276 send. -/
theorem c6_send_timestamp_amended_witness :
    ((bsiTick ⟨0, 0⟩ 1000 false true).lastBsi260 = if false then 1000 else (0 : Nat)) ∧
    ((bsiTick ⟨0, 0⟩ 1000 false true).lastBsi276 = if true then 1000 else (0 : Nat)) ∧
    (smegLoopTick ⟨0, 0⟩ 1000 false true).lastBsi260 = 1000 :=
  ⟨(c6_send_timestamp_amended ⟨0, 0⟩ 1000 false true).1 (by decide),
   (c6_send_timestamp_amended ⟨0, 0⟩ 1000 false true).2.1 (by decide),
   (c6_send_timestamp_amended ⟨0, 0⟩ 1000 false true).2.2 (by decide)⟩

/-- C8: calling the bus reconfigure operation with the profile the
controller is already running is a complete no-op: no transport operation
is issued (no teardown or restart), the state — including the two
broadcast timestamps and the volatile sensor caches — is returned
unchanged, and the call reports success. -/
theorem c8_reconfigure_idempotent (s : CanCtl) (b : CanBitrate) (nowMs : Nat)
    (installOk startOk : Bool) (hb : s.currentBitrate = b) (hr : s.canStarted = true) :
    twaiReconfigure s b nowMs installOk startOk = (s, true, []) := by
  rw [twaiReconfigure, if_pos ⟨hb, hr⟩]

/-- Witness for C8 at a concrete running controller state. -/
theorem c8_reconfigure_idempotent_witness :
    twaiReconfigure ⟨true, CanBitrate.k125k, 42, 57, 124, 900, 800⟩
        CanBitrate.k125k 1234 true true =
      (⟨true, CanBitrate.k125k, 42, 57, 124, 900, 800⟩, true, []) :=
  c8_reconfigure_idempotent _ CanBitrate.k125k 1234 true true rfl rfl

/-- C7: at startup an absent persisted settings frame yields the
hardware-profile baseline (the Peugeot 307 vendor frame on the headless
profile, the zero frame with only the menu bit on the fmux profile); an
all-zero persisted frame yields the same baseline result on both
profiles; a not-all-zero persisted frame is used as loaded; in every case
`bsiApplyLangUnits` then rewrites bytes 0/1. -/
theorem c7_load_baseline (p : List Nat) (lang5 : Nat) (isC : Bool) :
    bsiLoadFrameHeadless none lang5 isC =
      applyLangUnitsFrame kBsi260DefaultPeugeot307 lang5 isC ∧
    (p.all (· == 0) = true →
      bsiLoadFrameHeadless (some p) lang5 isC =
        applyLangUnitsFrame kBsi260DefaultPeugeot307 lang5 isC) ∧
    (p.all (· == 0) = false →
      bsiLoadFrameHeadless (some p) lang5 isC = applyLangUnitsFrame p lang5 isC) ∧
    bsiLoadFrameFmux none lang5 isC =
      applyLangUnitsFrame [128, 0, 0, 0, 0, 0, 0, 0] lang5 isC ∧
    (p.all (· == 0) = true → p.length = 8 →
      bsiLoadFrameFmux (some p) lang5 isC =
        applyLangUnitsFrame [128, 0, 0, 0, 0, 0, 0, 0] lang5 isC) ∧
    bsiLoadFrameFmux (some p) lang5 isC = applyLangUnitsFrame p lang5 isC := by
  refine ⟨rfl, ?_, ?_, rfl, ?_, rfl⟩
  · intro hz
    rw [bsiLoadFrameHeadless, if_pos hz]
  · intro hz
    rw [bsiLoadFrameHeadless, if_neg (by rw [hz]; exact Bool.false_ne_true)]
  · intro hz hlen
    have hp : p = [0, 0, 0, 0, 0, 0, 0, 0] := by
      have hall := List.all_eq_true.mp hz
      apply List.ext_getElem (by simp [hlen])
      intro i h1 h2
      have hmem : p[i] ∈ p := List.getElem_mem h1
      have h0 : p[i] = 0 := by
        have := hall _ hmem
        simpa using this
      rw [h0]
      rw [hlen] at h1
      interval_cases i <;> rfl
    rw [bsiLoadFrameFmux, hp]
    apply frame_eq_of_getByte (applyLangUnitsFrame_length _ _ _)
      (applyLangUnitsFrame_length _ _ _)
    intro i hi
    match i with
    | 0 =>
        rw [applyLangUnitsFrame_byte0, applyLangUnitsFrame_byte0]
        have h1 : getByte [0, 0, 0, 0, 0, 0, 0, 0] 0 &&& 3 = 0 := by decide
        have h2 : getByte [128, 0, 0, 0, 0, 0, 0, 0] 0 &&& 3 = 0 := by decide
        rw [h1, h2]
    | 1 => rfl
    | n + 2 =>
        rw [applyLangUnitsFrame_byte_ge2 _ _ _ _ (by omega) hi,
          applyLangUnitsFrame_byte_ge2 _ _ _ _ (by omega) hi]
        have hn : n < 6 := by omega
        have hz1 : getByte [0, 0, 0, 0, 0, 0, 0, 0] (n + 2) = 0 := by
          interval_cases n <;> rfl
        have hz2 : getByte [128, 0, 0, 0, 0, 0, 0, 0] (n + 2) = 0 := by
          interval_cases n <;> rfl
        rw [hz1, hz2]

/-- Witness for C7 with an all-zero persisted frame on both profiles. -/
theorem c7_load_baseline_witness :
    bsiLoadFrameHeadless (some [0, 0, 0, 0, 0, 0, 0, 0]) 14 true =
      applyLangUnitsFrame kBsi260DefaultPeugeot307 14 true ∧
    bsiLoadFrameFmux (some [0, 0, 0, 0, 0, 0, 0, 0]) 14 true =
      applyLangUnitsFrame [128, 0, 0, 0, 0, 0, 0, 0] 14 true :=
  ⟨(c7_load_baseline [0, 0, 0, 0, 0, 0, 0, 0] 14 true).2.1 (by decide),
   (c7_load_baseline [0, 0, 0, 0, 0, 0, 0, 0] 14 true).2.2.2.2.1 (by decide) (by decide)⟩

theorem applyLangUnits_is24h (s : St) : (bsiApplyLangUnits s).is24h = s.is24h := by
  cases h : s.have260 <;> simp [bsiApplyLangUnits, bsiEnsureBaseline, h]

theorem applyLangUnits_wallEpoch (s : St) :
    (bsiApplyLangUnits s).wallEpoch = s.wallEpoch := by
  cases h : s.have260 <;> simp [bsiApplyLangUnits, bsiEnsureBaseline, h]

theorem applyLangUnits_persistedEpoch (s : St) :
    (bsiApplyLangUnits s).persistedEpoch = s.persistedEpoch := by
  cases h : s.have260 <;> simp [bsiApplyLangUnits, bsiEnsureBaseline, h]

theorem applyLangUnits_persistedEpochMillis (s : St) :
    (bsiApplyLangUnits s).persistedEpochMillis = s.persistedEpochMillis := by
  cases h : s.have260 <;> simp [bsiApplyLangUnits, bsiEnsureBaseline, h]

/-- C1 as stated fails: the date/time write [0x18, 0x0D, 0x0F, 0x0E, 0x1E]
has month field 13, which `mktime` normalizes to January of the next year
rather than rejecting; the decoder changes the stored 24h flag (true to
false, from bit 7 of byte 0), changes the wall clock (to the normalized
2025-01-15 14:30), performs persistence writes, and re-broadcasts the
date/time message. -/
theorem c1_counterexample :
    (bsiHandle39B sampleSt [24, 13, 15, 14, 30] 777).1.is24h ≠ sampleSt.is24h ∧
    (bsiHandle39B sampleSt [24, 13, 15, 14, 30] 777).1.wallEpoch ≠ sampleSt.wallEpoch ∧
    (bsiHandle39B sampleSt [24, 13, 15, 14, 30] 777).2 ≠ [] := by decide

/-- C1 (amended): every date/time write of length ≥ 5 stores the 24h flag
decoded from the input, persists the settings state, and re-broadcasts
the date/time message, regardless of the decoded date fields; a
persist-time write happens exactly when the calendar conversion succeeds;
and only when the conversion itself fails (−1) are the wall clock and the
persisted epoch/reference left unchanged.  Nominally invalid fields such
as month = 13 are normalized by `mktime`, not rejected. -/
theorem c1_time_write_amended (s : St) (data : List Nat) (nowMs : Nat)
    (hlen : 5 ≤ data.length) :
    (bsiHandle39B s data nowMs).1.is24h = ((getByte data 0) &&& 128 != 0) ∧
    (bsiHandle39B s data nowMs).2 =
      Eff.persistState
          (bsiApplyLangUnits { s with is24h := ((getByte data 0) &&& 128 != 0) }).lang5
          (bsiApplyLangUnits { s with is24h := ((getByte data 0) &&& 128 != 0) }).is24h
          (bsiApplyLangUnits { s with is24h := ((getByte data 0) &&& 128 != 0) }).isCelsius
          (bsiApplyLangUnits { s with is24h := ((getByte data 0) &&& 128 != 0) }).state260 ::
        ((if handle39BEpoch data ≠ (-1 : Int)
          then [Eff.persistTime (handle39BEpoch data) nowMs] else []) ++
         [Eff.tx276 (bsiBuild276 (bsiHandle39B s data nowMs).1)]) ∧
    (handle39BEpoch data = -1 →
      (bsiHandle39B s data nowMs).1.wallEpoch = s.wallEpoch ∧
      (bsiHandle39B s data nowMs).1.persistedEpoch = s.persistedEpoch ∧
      (bsiHandle39B s data nowMs).1.persistedEpochMillis = s.persistedEpochMillis) := by
  have h5 : ¬ data.length < 5 := by omega
  rw [bsiHandle39B, if_neg h5]
  dsimp only
  refine ⟨?_, rfl, ?_⟩
  · split <;> rw [applyLangUnits_is24h]
  · intro hfail
    have hc : ¬ handle39BEpoch data ≠ (-1 : Int) := fun h => h hfail
    rw [if_neg hc]
    exact ⟨applyLangUnits_wallEpoch _, applyLangUnits_persistedEpoch _,
      applyLangUnits_persistedEpochMillis _⟩

/-- Witness for C1 (amended) at the spec's own worked example
[0x98, 0x03, 0x0F, 0x0E, 0x1E]. -/
theorem c1_time_write_amended_witness :
    (bsiHandle39B sampleSt [152, 3, 15, 14, 30] 777).1.is24h =
      ((getByte [152, 3, 15, 14, 30] 0) &&& 128 != 0) ∧
    (handle39BEpoch [152, 3, 15, 14, 30] = -1 →
      (bsiHandle39B sampleSt [152, 3, 15, 14, 30] 777).1.wallEpoch = sampleSt.wallEpoch ∧
      (bsiHandle39B sampleSt [152, 3, 15, 14, 30] 777).1.persistedEpoch =
        sampleSt.persistedEpoch ∧
      (bsiHandle39B sampleSt [152, 3, 15, 14, 30] 777).1.persistedEpochMillis =
        sampleSt.persistedEpochMillis) :=
  ⟨(c1_time_write_amended sampleSt [152, 3, 15, 14, 30] 777 (by decide)).1,
   (c1_time_write_amended sampleSt [152, 3, 15, 14, 30] 777 (by decide)).2.2⟩

/-! ### Calendar correctness: the modelled mktime/localtime pair is a
round trip on valid civil dates -/

theorem monthSpan_zero (y m : Nat) : monthSpan y m 0 = 0 := rfl

theorem monthSpan_succ (y m n : Nat) :
    monthSpan y m (n + 1) = daysInMonth y m + monthSpan y (m + 1) n := rfl

theorem yearSpan_zero (y : Nat) : yearSpan y 0 = 0 := rfl

theorem yearSpan_succ (y n : Nat) :
    yearSpan y (n + 1) = daysInYear y + yearSpan (y + 1) n := rfl

theorem splitYear_succ (f y d : Nat) :
    splitYear (f + 1) y d =
      if d < daysInYear y then (y, d) else splitYear f (y + 1) (d - daysInYear y) := rfl

theorem splitMonth_succ (y f m d : Nat) :
    splitMonth y (f + 1) m d =
      if d < daysInMonth y m then (m, d)
      else splitMonth y f (m + 1) (d - daysInMonth y m) := rfl

theorem daysInYear_pos (y : Nat) : 0 < daysInYear y := by
  rw [daysInYear]
  split <;> norm_num

theorem daysInMonth_pos (y m : Nat) : 0 < daysInMonth y m := by
  rw [daysInMonth]
  split
  · split <;> norm_num
  · split <;> norm_num

theorem splitYear_correct : ∀ (n f y r : Nat), n < f → r < daysInYear (y + n) →
    splitYear f y (yearSpan y n + r) = (y + n, r) := by
  intro n
  induction n with
  | zero =>
      intro f y r hf hr
      obtain ⟨f2, rfl⟩ : ∃ f2, f = f2 + 1 := ⟨f - 1, by omega⟩
      rw [yearSpan_zero, Nat.zero_add, splitYear_succ, if_pos (by simpa using hr)]
      simp
  | succ n ih =>
      intro f y r hf hr
      obtain ⟨f2, rfl⟩ : ∃ f2, f = f2 + 1 := ⟨f - 1, by omega⟩
      have hpos := daysInYear_pos y
      rw [yearSpan_succ, splitYear_succ, if_neg (by omega),
        show daysInYear y + yearSpan (y + 1) n + r - daysInYear y =
          yearSpan (y + 1) n + r from by omega,
        ih f2 (y + 1) r (by omega)
          (by rw [show y + 1 + n = y + (n + 1) from by omega]; exact hr),
        show y + 1 + n = y + (n + 1) from by omega]

theorem splitMonth_correct (y : Nat) : ∀ (n f m r : Nat), n < f →
    r < daysInMonth y (m + n) →
    splitMonth y f m (monthSpan y m n + r) = (m + n, r) := by
  intro n
  induction n with
  | zero =>
      intro f m r hf hr
      obtain ⟨f2, rfl⟩ : ∃ f2, f = f2 + 1 := ⟨f - 1, by omega⟩
      rw [monthSpan_zero, Nat.zero_add, splitMonth_succ, if_pos (by simpa using hr)]
      simp
  | succ n ih =>
      intro f m r hf hr
      obtain ⟨f2, rfl⟩ : ∃ f2, f = f2 + 1 := ⟨f - 1, by omega⟩
      have hpos := daysInMonth_pos y m
      rw [monthSpan_succ, splitMonth_succ, if_neg (by omega),
        show daysInMonth y m + monthSpan y (m + 1) n + r - daysInMonth y m =
          monthSpan y (m + 1) n + r from by omega,
        ih f2 (m + 1) r (by omega)
          (by rw [show m + 1 + n = m + (n + 1) from by omega]; exact hr),
        show m + 1 + n = m + (n + 1) from by omega]

theorem monthSpan_add (y a : Nat) : ∀ (m b : Nat),
    monthSpan y m (a + b) = monthSpan y m a + monthSpan y (m + a) b := by
  induction a with
  | zero =>
      intro m b
      simp [monthSpan_zero]
  | succ a ih =>
      intro m b
      rw [show a + 1 + b = (a + b) + 1 from by omega, monthSpan_succ, ih (m + 1) b,
        monthSpan_succ, show m + 1 + a = m + (a + 1) from by omega, Nat.add_assoc]

theorem monthSpan_full (y : Nat) : monthSpan y 1 12 = daysInYear y := by
  cases hL : isLeap y <;> simp [monthSpan, daysInMonth, daysInYear, hL]

theorem dayOfYear_lt (y m d : Nat) (hm1 : 1 ≤ m) (hm2 : m ≤ 12) (hd1 : 1 ≤ d)
    (hd2 : d ≤ daysInMonth y m) :
    monthSpan y 1 (m - 1) + (d - 1) < daysInYear y := by
  have hA := monthSpan_add y (m - 1) 1 (13 - m)
  rw [show m - 1 + (13 - m) = 12 from by omega,
    show 1 + (m - 1) = m from by omega] at hA
  have hB : monthSpan y m (13 - m) = daysInMonth y m + monthSpan y (m + 1) (12 - m) := by
    rw [show 13 - m = (12 - m) + 1 from by omega, monthSpan_succ]
  have hC := monthSpan_full y
  omega

theorem civilFromEpoch_mktimeUtc (y m d h mi : Nat)
    (hy1 : 2000 ≤ y) (hy2 : y < 2999) (hm1 : 1 ≤ m) (hm2 : m ≤ 12)
    (hd1 : 1 ≤ d) (hd2 : d ≤ daysInMonth y m) (hh : h < 24) (hmi : mi < 60) :
    civilFromEpoch (mktimeUtc y m d h mi) = (y, m, d, h, mi) := by
  have ht : (mktimeUtc y m d h mi - EPOCH2000).toNat =
      86400 * daysFromCivil2000 y m d + (3600 * h + 60 * mi) := by
    rw [mktimeUtc]
    have hc : EPOCH2000 + 86400 * (daysFromCivil2000 y m d : Int) + 3600 * h + 60 * mi -
        EPOCH2000 =
        ((86400 * daysFromCivil2000 y m d + (3600 * h + 60 * mi) : Nat) : Int) := by
      push_cast
      ring
    rw [hc, Int.toNat_natCast]
  rw [civilFromEpoch]
  rw [ht]
  have hrem : 3600 * h + 60 * mi < 86400 := by omega
  have hdays : (86400 * daysFromCivil2000 y m d + (3600 * h + 60 * mi)) / 86400 =
      daysFromCivil2000 y m d := by
    rw [Nat.mul_add_div (by norm_num), Nat.div_eq_of_lt hrem, Nat.add_zero]
  have hmod : (86400 * daysFromCivil2000 y m d + (3600 * h + 60 * mi)) % 86400 =
      3600 * h + 60 * mi := by
    rw [Nat.mul_add_mod, Nat.mod_eq_of_lt hrem]
  rw [hdays, hmod]
  have hD : daysFromCivil2000 y m d =
      yearSpan 2000 (y - 2000) + (monthSpan y 1 (m - 1) + (d - 1)) := by
    rw [daysFromCivil2000, Nat.add_assoc]
  rw [hD]
  have hsy : splitYear 1000 2000
      (yearSpan 2000 (y - 2000) + (monthSpan y 1 (m - 1) + (d - 1))) =
      (y, monthSpan y 1 (m - 1) + (d - 1)) := by
    have h1 := splitYear_correct (y - 2000) 1000 2000 (monthSpan y 1 (m - 1) + (d - 1))
      (by omega)
      (by rw [show 2000 + (y - 2000) = y from by omega]
          exact dayOfYear_lt y m d hm1 hm2 hd1 hd2)
    rw [show 2000 + (y - 2000) = y from by omega] at h1
    exact h1
  rw [hsy]
  dsimp only
  have hsm : splitMonth y 12 1 (monthSpan y 1 (m - 1) + (d - 1)) = (m, d - 1) := by
    have h1 := splitMonth_correct y (m - 1) 12 1 (d - 1) (by omega)
      (by rw [show 1 + (m - 1) = m from by omega]; omega)
    rw [show 1 + (m - 1) = m from by omega] at h1
    exact h1
  rw [hsm]
  dsimp only
  have hhour : (3600 * h + 60 * mi) / 3600 = h := by
    rw [Nat.mul_add_div (by norm_num), Nat.div_eq_of_lt (by omega), Nat.add_zero]
  have hmin : (3600 * h + 60 * mi) % 3600 / 60 = mi := by
    rw [Nat.mul_add_mod, Nat.mod_eq_of_lt (by omega),
      Nat.mul_div_cancel_left mi (by norm_num)]
  rw [hhour, hmin, show d - 1 + 1 = d from by omega]

theorem handle39B_success (s : St) (data : List Nat) (nowMs : Nat)
    (hlen : 5 ≤ data.length) (hne : handle39BEpoch data ≠ (-1 : Int)) :
    (bsiHandle39B s data nowMs).1.wallEpoch = handle39BEpoch data ∧
    (bsiHandle39B s data nowMs).1.is24h = ((getByte data 0) &&& 128 != 0) := by
  rw [bsiHandle39B, if_neg (by omega)]
  dsimp only
  rw [if_pos hne]
  exact ⟨rfl, applyLangUnits_is24h _⟩

theorem mktimeFromTm_of_month (y7 m d h mi : Nat) (hm1 : 1 ≤ m) (hm2 : m ≤ 12) :
    mktimeFromTm (2000 + y7 - 1900) (m - 1) d h mi = mktimeUtc (2000 + y7) m d h mi := by
  rw [mktimeFromTm, Nat.div_eq_of_lt (by omega), Nat.mod_eq_of_lt (by omega),
    show 1900 + (2000 + y7 - 1900) + 0 = 2000 + y7 from by omega,
    show m - 1 + 1 = m from by omega]

theorem handle39BEpoch_valid (data : List Nat)
    (hm1 : 1 ≤ getByte data 1 &&& 15) (hm2 : getByte data 1 &&& 15 ≤ 12)
    (hd1 : 1 ≤ getByte data 2 &&& 31) :
    handle39BEpoch data =
      mktimeUtc (2000 + (getByte data 0 &&& 127)) (getByte data 1 &&& 15)
        (getByte data 2 &&& 31) (getByte data 3 &&& 31) (getByte data 4 &&& 63) := by
  rw [handle39BEpoch]
  rw [if_pos (by omega), if_pos (by omega)]
  exact mktimeFromTm_of_month _ _ _ _ _ hm1 hm2

theorem mktimeUtc_nonneg (y m d h mi : Nat) : (0 : Int) ≤ mktimeUtc y m d h mi := by
  rw [mktimeUtc, EPOCH2000]
  positivity

theorem mask15_twice : ∀ v < 16, (v &&& 15) &&& 15 = v := by decide

theorem mask31_twice : ∀ v < 32, (v &&& 31) &&& 31 = v := by decide

theorem mask63_twice : ∀ v < 64, (v &&& 63) &&& 63 = v := by decide

theorem byte0_true : ∀ v < 128,
    (((128 ||| v) &&& 128 != 0) = true) ∧ ((128 ||| v) &&& 127 = v) := by decide

theorem byte0_false : ∀ v < 128,
    (((0 ||| v) &&& 128 != 0) = false) ∧ ((0 ||| v) &&& 127 = v) := by decide

theorem decode_pack (F : Bool) (y7 M D H MI : Nat) (hy : y7 < 128) (hM : M < 16)
    (hD : D < 32) (hH : H < 32) (hMI : MI < 64) :
    decodeTimeFields [(if F then 128 else 0) ||| y7, M &&& 15, D &&& 31, H &&& 31,
      MI &&& 63, 63, 254] = (F, y7, M, D, H, MI) := by
  rw [decodeTimeFields]
  have g0 : ∀ a b c d e : Nat, getByte [a, b, c, d, e, 63, 254] 0 = a :=
    fun _ _ _ _ _ => rfl
  have g1 : ∀ a b c d e : Nat, getByte [a, b, c, d, e, 63, 254] 1 = b :=
    fun _ _ _ _ _ => rfl
  have g2 : ∀ a b c d e : Nat, getByte [a, b, c, d, e, 63, 254] 2 = c :=
    fun _ _ _ _ _ => rfl
  have g3 : ∀ a b c d e : Nat, getByte [a, b, c, d, e, 63, 254] 3 = d :=
    fun _ _ _ _ _ => rfl
  have g4 : ∀ a b c d e : Nat, getByte [a, b, c, d, e, 63, 254] 4 = e :=
    fun _ _ _ _ _ => rfl
  rw [g0, g1, g2, g3, g4]
  cases F
  · simp only [Bool.false_eq_true, if_false]
    rw [(byte0_false y7 hy).2, mask15_twice M hM, mask31_twice D hD, mask31_twice H hH,
      mask63_twice MI hMI, (byte0_false y7 hy).1]
  · simp only [if_true]
    rw [(byte0_true y7 hy).2, mask15_twice M hM, mask31_twice D hD, mask31_twice H hH,
      mask63_twice MI hMI, (byte0_true y7 hy).1]

/-- C5 as stated fails: the date/time write [0x18, 0x04, 0x1F, 0x0E, 0x1E]
has year 2024, month 4, day 31 — fields the claim admits (1 ≤ day ≤ 31) —
but April has 30 days, so `mktime` normalizes the date to 2024-05-01 and
the broadcast emitted immediately afterwards decodes to month 5, day 1,
not month 4, day 31. -/
theorem c5_counterexample :
    getByte (bsiBuild276 (bsiHandle39B sampleSt [24, 4, 31, 14, 30] 7).1) 1 ≠
      getByte [24, 4, 31, 14, 30] 1 &&& 15 ∧
    getByte (bsiBuild276 (bsiHandle39B sampleSt [24, 4, 31, 14, 30] 7).1) 2 ≠
      getByte [24, 4, 31, 14, 30] 2 &&& 31 := by decide

/-- C5 (amended): for every date/time write of length ≥ 5 whose decoded
fields satisfy 1 ≤ month ≤ 12, 1 ≤ day ≤ days-in-month(year, month),
hour ≤ 23 and minute ≤ 59 (year = 2000 + bits[6:0] of byte 0 is always in
range), the date/time broadcast emitted immediately afterwards decodes
back to the same year, month, day, hour, minute and the same 24h flag. -/
theorem c5_roundtrip_amended (s : St) (data : List Nat) (nowMs : Nat)
    (hlen : 5 ≤ data.length)
    (hm1 : 1 ≤ getByte data 1 &&& 15) (hm2 : getByte data 1 &&& 15 ≤ 12)
    (hd1 : 1 ≤ getByte data 2 &&& 31)
    (hd2 : getByte data 2 &&& 31 ≤
      daysInMonth (2000 + (getByte data 0 &&& 127)) (getByte data 1 &&& 15))
    (hh : getByte data 3 &&& 31 ≤ 23) (hmi : getByte data 4 &&& 63 ≤ 59) :
    decodeTimeFields (bsiBuild276 (bsiHandle39B s data nowMs).1) =
      decodeTimeFields data := by
  have hy7 : getByte data 0 &&& 127 ≤ 127 := Nat.and_le_right
  have hD31 : getByte data 2 &&& 31 ≤ 31 := Nat.and_le_right
  have hepoch := handle39BEpoch_valid data hm1 hm2 hd1
  have hne : handle39BEpoch data ≠ (-1 : Int) := by
    rw [hepoch]
    have h0 := mktimeUtc_nonneg (2000 + (getByte data 0 &&& 127)) (getByte data 1 &&& 15)
      (getByte data 2 &&& 31) (getByte data 3 &&& 31) (getByte data 4 &&& 63)
    omega
  obtain ⟨hwall, h24⟩ := handle39B_success s data nowMs hlen hne
  rw [bsiBuild276, hwall, hepoch,
    civilFromEpoch_mktimeUtc _ _ _ _ _ (by omega) (by omega) hm1 hm2 hd1 hd2 (by omega)
      (by omega)]
  dsimp only
  rw [h24, if_pos (show (2000 : Nat) ≤ 2000 + (getByte data 0 &&& 127) from by omega),
    show 2000 + (getByte data 0 &&& 127) - 2000 = getByte data 0 &&& 127 from by omega,
    Nat.mod_eq_of_lt (show getByte data 0 &&& 127 < 256 from by omega),
    decode_pack _ _ _ _ _ _ (by omega) (by omega) (by omega) (by omega) (by omega)]
  rfl

/-- Witness for C5 (amended) at the spec's worked example: 2024-03-15
14:30 with the 24h flag set. -/
theorem c5_roundtrip_amended_witness :
    decodeTimeFields (bsiBuild276 (bsiHandle39B sampleSt [152, 3, 15, 14, 30] 7).1) =
      decodeTimeFields [152, 3, 15, 14, 30] :=
  c5_roundtrip_amended sampleSt [152, 3, 15, 14, 30] 7 (by decide) (by decide)
    (by decide) (by decide) (by decide) (by decide) (by decide)

end Bsi
